import Mathlib

/-!
A shallow embedding of the `binance_public_data` scripts: the S3 listing
parser and key filter (`utils.py`, `download_zip_data.py`,
`count_xml_zip_files.py`), the retry-configured fetcher
(`utils.send_xml_request_with_retry`, `setup_session`), the recursive
crawler (`utils.process_s3_directory_recursive`), the level-synchronized
multiprocess crawler (`download_xml_multiprocess.py`), and the archive
downloader (`download_zip_data.py`).

Python strings are modelled as Lean `String` (or `List Char` where suffix
reasoning is needed); Python `None` is `Option.none`.  Network and
filesystem effects are passed in explicitly as environment functions.
-/

namespace BinancePublicData

/-! ## Listing documents and the XML parsers

An S3 listing response, as seen through `xml.etree.ElementTree`.  A document
is either malformed (raises `ET.ParseError` on `fromstring`) or well formed,
in which case it carries the list of `s3:CommonPrefixes` elements and the
list of `s3:Contents` elements.

For a `CommonPrefixes` element, `find("s3:Prefix")` may return no element
(outer `none`) or an element whose `.text` is itself `None` when the element
is empty (inner `none`).  The same shape models a `Contents` element's
`s3:Key` child. -/

inductive XmlDoc where
  | malformed
  | wellFormed (commonPfxElems : List (Option (Option String)))
      (contentsElems : List (Option (Option String)))
deriving DecidableEq

/-- Translation of `utils.get_common_prefixes` (identical code appears in
`download_xml_multiprocess.get_common_prefixes`): on a parse error it
catches the exception and returns `[]`; otherwise, for each
`CommonPrefixes` element whose `Prefix` child exists (`is not None`), it
appends `prefix_elem.text` — which is `None` for an empty element, so the
resulting list may contain non-string entries. -/
def get_common_prefixes : XmlDoc → List (Option String)
  | .malformed => []
  | .wellFormed cps _ => cps.filterMap id

/-- Python truthiness of an element text (`key_elem.text` in a bare `if`):
false for `None` and for the empty string. -/
def textTruthy : Option String → Bool
  | none => false
  | some s => s ≠ ""

/-- Python `s.endswith(suf)`: `suf` is a suffix of `s`. -/
def pyEndsWith (s suf : String) : Bool := decide (suf.data <:+ s.data)

/-- Translation of `utils.get_zip_files_from_xml`: keys of `Contents`
elements whose `Key` child exists with truthy text and that end in
`".zip"` (this variant does not exclude `.zip.CHECKSUM` sidecars). -/
def get_zip_files_from_xml : XmlDoc → List String
  | .malformed => []
  | .wellFormed _ cts => cts.filterMap fun entry =>
      match entry with
      | some (some k) =>
          if textTruthy (some k) && pyEndsWith k ".zip" then some k else none
      | _ => none

/-- The per-entry key filter shared by
`download_zip_data.extract_zip_files_from_xml` (lines 66-73) and
`count_xml_zip_files.count_zip_files_in_xml` (lines 45-52): keep a key with
truthy text that ends in `".zip"` but not in `".zip.CHECKSUM"`. -/
def zipKeyFilter (entry : Option (Option String)) : Option String :=
  match entry with
  | some (some k) =>
      if textTruthy (some k) && (pyEndsWith k ".zip" && !pyEndsWith k ".zip.CHECKSUM")
      then some k else none
  | _ => none

/-- The loop over `Contents` elements in the two scripts above. -/
def zipKeysOf (cts : List (Option (Option String))) : List String :=
  cts.filterMap zipKeyFilter

/-- Translation of `download_zip_data.extract_zip_files_from_xml` with the
file already read and parsed into an `XmlDoc`: parse errors (and the other
caught exceptions) yield the empty list. -/
def extract_zip_files_from_xml : XmlDoc → List String
  | .malformed => []
  | .wellFormed _ cts => zipKeysOf cts

/-- Translation of `count_xml_zip_files.count_zip_files_in_xml` (the part
after reading the file): returns the count, the key list, and an error
string that is empty on success and nonempty on a parse error. -/
def count_zip_files_in_xml : XmlDoc → Nat × List String × String
  | .malformed => (0, [], "XML parse error")
  | .wellFormed _ cts => ((zipKeysOf cts).length, zipKeysOf cts, "")

/-! ## Mirror file name derivation

Both crawlers build the mirror file name with the same expression
(`utils.py` line 125, `download_xml_multiprocess.py` line 79):

  f-string "directory_" + prefix.replace('/', '_').rstrip('_') + ".xml"

`replace('/', '_')` on a one-character pattern is a character map;
`rstrip('_')` removes every trailing underscore. -/

/-- Python `p.replace('/', '_')` on the character list of the prefix. -/
def replaceSlash (l : List Char) : List Char :=
  l.map fun c => if c = '/' then '_' else c

/-- Python `s.rstrip('_')`: drop all trailing underscores. -/
def rstripUnderscore (l : List Char) : List Char :=
  (l.reverse.dropWhile (· = '_')).reverse

/-- The encoded prefix inside the mirror file name, as the code computes it:
`prefix.replace('/', '_').rstrip('_')`. -/
def encodePfx (l : List Char) : List Char := rstripUnderscore (replaceSlash l)

/-- The mirror file name `f"directory_{prefix.replace('/', '_').rstrip('_')}.xml"`. -/
def xml_filename (p : String) : String :=
  "directory_" ++ String.mk (encodePfx p.data) ++ ".xml"

/-- Modelled from the spec: the spec's words for 4.5/C8 describe the encoded
prefix as obtained by "replacing path separators with the substitution
character and stripping the trailing separator", i.e. remove one trailing
`'/'` (if present) and replace the remaining separators by `'_'`.  This
definition follows the spec's words, for comparison with `encodePfx`, which
is translated from the code. -/
def specEncodePfx (l : List Char) : List Char :=
  replaceSlash (if l.getLast? = some '/' then l.dropLast else l)

/-! ## The retry-configured fetcher

`utils.send_xml_request_with_retry` and
`download_xml_multiprocess.setup_session` mount an
`HTTPAdapter(max_retries=Retry(total=retries, backoff_factor=0.5))` and then
issue `session.get(url)` followed by `response.raise_for_status()`.

The retry loop itself lives in `urllib3`; it is modelled here from urllib3's
documented semantics for the parameters the code sets (all other `Retry`
fields keep their defaults, in particular `status_forcelist=None`): a
transport-level failure consumes one retry; a response is retried only when
its status is in the forcelist or when it carries a `Retry-After` header and
its status is one of 413/429/503 (`Retry.RETRY_AFTER_STATUS_CODES`);
otherwise the response is returned as is.  Exhausting the retry budget
raises `MaxRetryError`.  Wall-clock backoff sleeps are not modelled. -/

/-- One attempt against the server: either a transport-level failure or an
HTTP response with a status code and a flag for a `Retry-After` header. -/
inductive AttemptResult where
  | transportError
  | response (status : Nat) (hasRetryAfter : Bool)
deriving DecidableEq

/-- urllib3's `Retry.RETRY_AFTER_STATUS_CODES`. -/
def retryAfterStatuses : List Nat := [413, 429, 503]

/-- urllib3 `Retry.is_retry` for a returned response, with
`respect_retry_after_header` left at its default `True`. -/
def retry_is_retry (forcelist : List Nat) (status : Nat) (hasRetryAfter : Bool) : Bool :=
  forcelist.contains status || (hasRetryAfter && retryAfterStatuses.contains status)

/-- The adapter's retry loop: `server k` is the outcome of the `k`-th
attempt, `remaining` the retries still allowed (`Retry(total=...)`).
Returns the number of attempts actually made and either the final status
code or the terminal error. -/
def urlopenLoop (server : Nat → AttemptResult) (forcelist : List Nat) :
    Nat → Nat → Nat × Except String Nat
  | 0, k =>
      match server k with
      | .transportError => (1, .error "MaxRetryError")
      | .response s ra =>
          if retry_is_retry forcelist s ra then (1, .error "MaxRetryError")
          else (1, .ok s)
  | r + 1, k =>
      match server k with
      | .transportError =>
          let t := urlopenLoop server forcelist r (k + 1)
          (t.1 + 1, t.2)
      | .response s ra =>
          if retry_is_retry forcelist s ra then
            let t := urlopenLoop server forcelist r (k + 1)
            (t.1 + 1, t.2)
          else (1, .ok s)

/-- `requests.Response.raise_for_status`: raises `HTTPError` for 4xx/5xx
status codes, otherwise returns the response. -/
def raise_for_status (s : Nat) : Except String Nat :=
  if 400 ≤ s then .error "HTTPError" else .ok s

/-- Translation of `utils.send_xml_request_with_retry` (the status-code
skeleton; the body content is carried separately by `XmlDoc` elsewhere):
run the adapter loop with the configured retries and the default (empty)
status forcelist, then `raise_for_status`.  Returns the number of attempts
made together with the result. -/
def send_xml_request_with_retry (server : Nat → AttemptResult) (retries : Nat) :
    Nat × Except String Nat :=
  let t := urlopenLoop server [] retries 0
  (t.1, t.2.bind raise_for_status)

/-! ## Shared fetch environment

A prefix fetch (URL build + GET + retries, plus the mirror-file write and
UTF-8 decode on the multiprocess path) either yields a parsed listing
document or fails with an error message.  The environment abstracts the
network and is a function of the prefix string only — only `str` prefixes
ever reach the network, because `save_dir / prefix` raises a `TypeError`
for a `None` prefix before any request is built. -/

inductive FetchOutcome where
  | success (doc : XmlDoc)
  | failure (msg : String)
deriving DecidableEq

/-- The error message of `Path.__truediv__` applied to `None`, raised by
`save_dir / prefix` when a `None` child prefix is processed. -/
def typeErrorMsg : String := "TypeError: argument should be a str, not NoneType"

/-! ## The recursive crawler (`utils.process_s3_directory_recursive`)

The function's observable effects are collected in a `Trace`: the fetches
it attempts (tagged with the `current_depth` at which they happen), the
mirror files it saves (as (prefix, file name) pairs under
`save_dir / prefix`), and the lines it appends to `errors.log` (as
(prefix, error text) pairs — the code formats them into one line each).

The code recurses with `current_depth + 1` and returns as soon as
`current_depth >= max_depth`, so along every call chain
`max_depth - current_depth` strictly decreases; `procRec` makes that
quantity an explicit structural argument (`fuel`), with
`fuel = max_depth - current_depth` at every call site, so the `fuel = 0`
case is exactly the code's `current_depth >= max_depth` early return. -/

structure Trace where
  fetched : List (Nat × String)
  files : List (String × String)
  errlog : List (Option String × String)
deriving DecidableEq

def Trace.empty : Trace := ⟨[], [], []⟩

def Trace.append (a b : Trace) : Trace :=
  ⟨a.fetched ++ b.fetched, a.files ++ b.files, a.errlog ++ b.errlog⟩

/-- The loop `for child_prefix in child_prefixes: process(...)`, executed
inside the parent's `try`: each child call returns its trace and, when it
raised an uncaught exception (the `None`-prefix `TypeError`), the loop
stops and hands the exception up (the parent's `except` will log it and
skip the remaining siblings). -/
def procChildrenAux (f : Option String → Trace × Option String) :
    List (Option String) → Trace × Option String
  | [] => (Trace.empty, none)
  | c :: rest =>
      let r := f c
      match r.2 with
      | some e => (r.1, some e)
      | none =>
          let rr := procChildrenAux f rest
          (r.1.append rr.1, rr.2)

/-- One unfolding of `process_s3_directory_recursive` past its depth guard,
with `rec` standing for the recursive calls at `current_depth + 1`:
`save_dir / prefix` (raises for `None`), then inside `try`: the fetch
(on failure the `except` appends one `errors.log` line keyed by this
prefix and returns), the mirror-file save, the parse, and the child loop;
an exception escaping the child loop is caught here and logged against
this prefix. -/
def procStep (env : String → FetchOutcome)
    (rec : Nat → Option String → Trace × Option String)
    (d : Nat) (pfx : Option String) : Trace × Option String :=
  match pfx with
  | none => (Trace.empty, some typeErrorMsg)
  | some p =>
      match env p with
      | .failure msg => (⟨[(d, p)], [], [(some p, msg)]⟩, none)
      | .success doc =>
          let r := procChildrenAux (rec (d + 1)) (get_common_prefixes doc)
          match r.2 with
          | none =>
              (⟨(d, p) :: r.1.fetched, (p, xml_filename p) :: r.1.files, r.1.errlog⟩, none)
          | some e =>
              (⟨(d, p) :: r.1.fetched, (p, xml_filename p) :: r.1.files,
                r.1.errlog ++ [(some p, e)]⟩, none)

/-- `process_s3_directory_recursive` with `fuel = max_depth - current_depth`
made structural: `fuel = 0` is the `current_depth >= max_depth` return. -/
def procRec (env : String → FetchOutcome) : Nat → Nat → Option String → Trace × Option String
  | 0, _, _ => (Trace.empty, none)
  | fuel + 1, d, pfx => procStep env (procRec env fuel) d pfx

/-- The entry point `process_s3_directory_recursive(s3_base_url, prefix,
save_dir, max_depth)`: starts at `current_depth = 0`, so the structural
fuel is `max_depth`. -/
def process_s3_directory_recursive (env : String → FetchOutcome)
    (maxDepth : Nat) (pfx : Option String) : Trace × Option String :=
  procRec env maxDepth 0 pfx

/-! ## The level-synchronized crawler (`download_xml_multiprocess.py`) -/

/-- Result tuple of `download_xml_worker`: `(success, error_msg,
xml_file_path, child_prefixes)`.  `file` is the saved file's name
(`xml_file_path` relative to `save_dir / prefix`); it is the empty string
on failure (the code returns `Path("")`). -/
structure WorkerOut where
  success : Bool
  errMsg : String
  file : String
  children : List (Option String)
deriving DecidableEq

/-- Translation of `download_xml_worker`: the whole body runs under
`try/except Exception`.  A `None` prefix raises the `TypeError` at
`save_dir / prefix` and is reported as a failure; otherwise the fetch
either fails (failure tuple with empty child list) or succeeds, in which
case the XML is saved and parsed for child prefixes. -/
def download_xml_worker (env : String → FetchOutcome) (pfx : Option String) : WorkerOut :=
  match pfx with
  | none => ⟨false, typeErrorMsg, "", []⟩
  | some p =>
      match env p with
      | .failure msg => ⟨false, msg, "", []⟩
      | .success doc => ⟨true, "", xml_filename p, get_common_prefixes doc⟩

/-- Result of one level: `(next_level_prefixes, successful_downloads,
failed_downloads)` plus the level's `failed_tasks` list of
`(prefix, error_msg)` pairs. -/
structure LevelOut where
  next : List (Option String)
  succ : Nat
  fail : Nat
  failedTasks : List (Option String × String)
deriving DecidableEq

/-- Translation of `process_level_with_multiprocessing_with_multiprocessing`: every prefix of
the level is dispatched; results are collected in task order; each success
extends `next_level_prefixes` with its child prefixes and bumps the
success counter; each failure bumps the failure counter and appends
`(prefix, error_msg)` to `failed_tasks`. -/
def process_level_with_multiprocessing (env : String → FetchOutcome) :
    List (Option String) → LevelOut
  | [] => ⟨[], 0, 0, []⟩
  | p :: rest =>
      let w := download_xml_worker env p
      let r := process_level_with_multiprocessing env rest
      if w.success then ⟨w.children ++ r.next, r.succ + 1, r.fail, r.failedTasks⟩
      else ⟨r.next, r.succ, r.fail + 1, (p, w.errMsg) :: r.failedTasks⟩

/-- Python `list(set(xs))`: an arbitrary-order duplicate-free list with the
same members; modelled by Mathlib's `List.dedup`. -/
def pySetList (l : List (Option String)) : List (Option String) := l.dedup

/-- One record per executed level of `main`'s loop: the deduplicated
frontier that was dispatched, and the level's results. -/
structure LevelRec where
  dispatched : List (Option String)
  next : List (Option String)
  succ : Nat
  fail : Nat
  failedTasks : List (Option String × String)
deriving DecidableEq

/-- Translation of the loop in `download_xml_multiprocess.main`:
`for level in range(max_depth)`, stop when the frontier is empty,
deduplicate it, process the level, and continue with the discovered
child prefixes (stopping early when there are none). -/
def runLevels (env : String → FetchOutcome) :
    Nat → List (Option String) → List LevelRec
  | 0, _ => []
  | fuel + 1, cur =>
      if cur.isEmpty then []
      else
        let dispatched := pySetList cur
        let r := process_level_with_multiprocessing env dispatched
        ⟨dispatched, r.next, r.succ, r.fail, r.failedTasks⟩ ::
          (if r.next.isEmpty then [] else runLevels env fuel r.next)

/-- The crawl as `main` runs it: the start prefix is the single element of
the initial frontier. -/
def runCrawl (env : String → FetchOutcome) (maxDepth : Nat) (start : String) :
    List LevelRec :=
  runLevels env maxDepth [some start]

/-! ## Date filter and argument validation (`download_zip_data.py`) -/

/-- Python truthiness of an optional CLI string argument (`args.year`,
`args.month`): false for `None` and for the empty string. -/
def argTruthy : Option String → Bool
  | none => false
  | some s => s ≠ ""

/-- Python `s.zfill(2)`: left-pad with `'0'` to length 2, keeping a leading
sign in front of the padding. -/
def pyZfill2 (s : String) : String :=
  if 2 ≤ s.length then s
  else
    match s.data with
    | [] => "00"
    | c :: rest =>
        if c = '+' ∨ c = '-' then String.mk (c :: List.replicate (1 - rest.length) '0' ++ rest)
        else String.mk (List.replicate (2 - s.length) '0' ++ s.data)

/-- Python `in` on strings: the pattern occurs as a contiguous substring. -/
def pyContains (s pat : String) : Bool := decide (pat.data <:+: s.data)

/-- Translation of `filter_files_by_date`: with a falsy year or month the
list is returned unfiltered; otherwise the pattern
`f"{year}-{month.zfill(2)}"` is built and a key is kept iff it contains the
pattern as a substring. -/
def filter_files_by_date (zip_files : List String) (year month : Option String) :
    List String :=
  if !argTruthy year || !argTruthy month then zip_files
  else
    let date_pattern := year.getD "" ++ "-" ++ pyZfill2 (month.getD "")
    zip_files.filter fun z => pyContains z date_pattern

/-- Python `int(s)` restricted to an optional sign followed by decimal
digits (the forms the CLI arguments take); other strings raise
`ValueError`, modelled as `none`. -/
def digitsToNat : List Char → Option Nat
  | [] => none
  | cs =>
      if cs.all Char.isDigit then
        some (cs.foldl (fun a c => a * 10 + (c.toNat - '0'.toNat)) 0)
      else none

def pyIntParse (s : String) : Option Int :=
  match s.data with
  | '-' :: rest => (digitsToNat rest).map fun n => -(n : Int)
  | '+' :: rest => (digitsToNat rest).map fun n => (n : Int)
  | l => (digitsToNat l).map fun n => (n : Int)

/-- Python `f"{month_int:02d}"` for the validated month. -/
def month_fmt (m : Int) : String :=
  if 0 ≤ m ∧ m < 10 then "0" ++ toString m else toString m

/-- Translation of the argument validation in `download_zip_data.main`
(lines 226-246): if either of year/month is truthy, both must be; both
must parse as ints and the month must lie in 1..12, else `sys.exit(1)`.
On success the year string is kept verbatim and the month is normalized to
two digits.  `Except.error c` is `sys.exit(c)`. -/
def validate_date_args (year month : Option String) :
    Except Nat (Option (String × String)) :=
  if argTruthy year || argTruthy month then
    if argTruthy year && argTruthy month then
      match pyIntParse (year.getD ""), pyIntParse (month.getD "") with
      | some _, some mi =>
          if 1 ≤ mi ∧ mi ≤ 12 then .ok (some (year.getD "", month_fmt mi))
          else .error 1
      | _, _ => .error 1
    else .error 1
  else .ok none

/-- The pure skeleton of `download_zip_data.main` up to the list of keys
selected for download: validate the date arguments first (exiting with
status 1 on a usage error, before any file or network activity), then
filter the keys extracted from the XML mirror.  The interactive
confirmation and the download phase come after and are modelled by
`run_download_batch` below. -/
def download_zip_main (year month : Option String) (all_zip_files : List String) :
    Except Nat (List String) :=
  match validate_date_args year month with
  | .error c => .error c
  | .ok none => .ok all_zip_files
  | .ok (some (y, m)) => .ok (filter_files_by_date all_zip_files (some y) (some m))

/-! ## The archive download worker and batch (`download_zip_data.py`)

The local filesystem is a map from paths to file contents.  One download
attempt either streams a complete body or raises midway, possibly after
writing a partial file. -/

def FsState := String → Option String

def fsWrite (fs : FsState) (p c : String) : FsState :=
  fun q => if q = p then some c else fs q

def fsErase (fs : FsState) (p : String) : FsState :=
  fun q => if q = p then none else fs q

/-- Outcome of `session.get` + the chunked write for one key: either the
complete content, or an exception after writing an optional partial file. -/
inductive DlOutcome where
  | ok (content : String)
  | err (part : Option String)

/-- Translation of `download_file_worker`: skip (and report success) when
the local path already exists; otherwise attempt the download, writing the
full content on success; on an exception, the partially written file (if
any) is unlinked before reporting failure.  Returns the filesystem after
the call and the success flag. -/
def download_file_worker (net : DlOutcome) (fs : FsState) (path : String) :
    FsState × Bool :=
  if (fs path).isSome then (fs, true)
  else
    match net with
    | .ok c => (fsWrite fs path c, true)
    | .err part =>
        let fs1 := match part with
          | none => fs
          | some pc => fsWrite fs path pc
        let fs2 := if (fs1 path).isSome then fsErase fs1 path else fs1
        (fs2, false)

/-- Translation of the download loop in `download_zip_data.main`: every
task is submitted and its result collected under `try/except`; successes
and failures are counted and failed keys recorded, no failure aborting
the batch.  Tasks are identified by their local path (`downloadDir/key`);
`net` gives each key's download outcome. -/
def run_download_batch (net : String → DlOutcome) :
    List String → FsState → FsState × Nat × Nat × List String
  | [], fs => (fs, 0, 0, [])
  | k :: rest, fs =>
      let r := download_file_worker (net k) fs k
      let t := run_download_batch net rest r.1
      if r.2 then (t.1, t.2.1 + 1, t.2.2.1, t.2.2.2)
      else (t.1, t.2.1, t.2.2.1 + 1, k :: t.2.2.2)

/-- Default record used with `List.getD` over level lists. -/
def noLevel : LevelRec := ⟨[], [], 0, 0, []⟩

/-! ## Helper lemmas -/

lemma pyEndsWith_iff (s suf : String) : pyEndsWith s suf = true ↔ suf.data <:+ s.data := by
  simp [pyEndsWith]

lemma suffix_getLast (s l : List Char) (h : s <:+ l) (hne : s ≠ []) :
    l.getLast? = s.getLast? := by
  obtain ⟨t, rfl⟩ := h
  exact List.getLast?_append_of_ne_nil t hne

lemma endsWith_last (k suf : String) (c : Char) (hs : suf.data.getLast? = some c)
    (hne : suf.data ≠ []) (h : pyEndsWith k suf = true) : k.data.getLast? = some c := by
  rw [pyEndsWith_iff] at h
  rw [suffix_getLast _ _ h hne]
  exact hs

lemma zipKeyFilter_eq_some (entry : Option (Option String)) (k : String) :
    zipKeyFilter entry = some k ↔
      entry = some (some k) ∧ textTruthy (some k) = true ∧
        pyEndsWith k ".zip" = true ∧ pyEndsWith k ".zip.CHECKSUM" = false := by
  rcases entry with _ | e
  · simp [zipKeyFilter]
  rcases e with _ | k'
  · simp [zipKeyFilter]
  · simp only [zipKeyFilter, Option.some.injEq]
    constructor
    · intro h
      by_cases hc :
          (textTruthy (some k') && (pyEndsWith k' ".zip" && !pyEndsWith k' ".zip.CHECKSUM")) = true
      · rw [if_pos hc] at h
        obtain rfl : k' = k := Option.some.inj h
        simp only [Bool.and_eq_true, Bool.not_eq_true'] at hc
        exact ⟨rfl, hc.1, hc.2.1, hc.2.2⟩
      · rw [if_neg hc] at h
        exact absurd h (by simp)
    · rintro ⟨rfl, h1, h2, h3⟩
      rw [if_pos (by simp [h1, h2, h3])]

lemma mem_zipKeysOf (cts : List (Option (Option String))) (k : String) :
    k ∈ zipKeysOf cts ↔
      some (some k) ∈ cts ∧ textTruthy (some k) = true ∧
        pyEndsWith k ".zip" = true ∧ pyEndsWith k ".zip.CHECKSUM" = false := by
  unfold zipKeysOf
  rw [List.mem_filterMap]
  constructor
  · rintro ⟨e, he, hf⟩
    rw [zipKeyFilter_eq_some] at hf
    exact ⟨hf.1 ▸ he, hf.2⟩
  · rintro ⟨hm, h1, h2, h3⟩
    exact ⟨some (some k), hm, (zipKeyFilter_eq_some _ _).mpr ⟨rfl, h1, h2, h3⟩⟩

lemma endsWith_zip_truthy (k : String) (h : pyEndsWith k ".zip" = true) :
    textTruthy (some k) = true := by
  rw [pyEndsWith_iff] at h
  have hlen : (".zip" : String).data.length ≤ k.data.length := h.length_le
  simp only [textTruthy, decide_eq_true_eq]
  intro hk
  rw [hk] at hlen
  simp at hlen

/-! ## C6: key classification -/

/-- Claim C6: a key present in a `Contents` element (with truthy text) is
selected for download iff it ends with `".zip"` and does not end with
`".zip.CHECKSUM"`; appending `".CHECKSUM"` to a wanted key excludes it, a
`".json"` key is excluded, and the counting script uses the same
classification. -/
theorem claim_C6_key_classification :
    (∀ (cps cts : List (Option (Option String))) (k : String),
        some (some k) ∈ cts →
        (k ∈ extract_zip_files_from_xml (.wellFormed cps cts) ↔
          pyEndsWith k ".zip" = true ∧ pyEndsWith k ".zip.CHECKSUM" = false))
    ∧ (∀ k : String, pyEndsWith k ".zip" = true → pyEndsWith k ".zip.CHECKSUM" = false)
    ∧ (∀ k : String, pyEndsWith k ".zip" = true →
        pyEndsWith (k ++ ".CHECKSUM") ".zip.CHECKSUM" = true ∧
          pyEndsWith (k ++ ".CHECKSUM") ".zip" = false)
    ∧ (∀ k : String, pyEndsWith k ".json" = true → pyEndsWith k ".zip" = false)
    ∧ (∀ d : XmlDoc, (count_zip_files_in_xml d).2.1 = extract_zip_files_from_xml d) := by
  refine ⟨?_, ?_, ?_, ?_, ?_⟩
  · intro cps cts k hm
    show k ∈ zipKeysOf cts ↔ _
    rw [mem_zipKeysOf]
    constructor
    · rintro ⟨-, -, h2, h3⟩
      exact ⟨h2, h3⟩
    · rintro ⟨h2, h3⟩
      exact ⟨hm, endsWith_zip_truthy k h2, h2, h3⟩
  · intro k h
    cases hx : pyEndsWith k ".zip.CHECKSUM" with
    | false => rfl
    | true =>
      have l1 := endsWith_last _ ".zip" 'p' (by decide) (by decide) h
      have l2 := endsWith_last _ ".zip.CHECKSUM" 'M' (by decide) (by decide) hx
      rw [l1] at l2
      exact absurd l2 (by decide)
  · intro k h
    constructor
    · rw [pyEndsWith_iff] at h ⊢
      rw [String.data_append]
      have he : (".zip.CHECKSUM" : String).data =
          (".zip" : String).data ++ (".CHECKSUM" : String).data := by decide
      rw [he]
      obtain ⟨t, ht⟩ := h
      exact ⟨t, by rw [← List.append_assoc, ht]⟩
    · cases hx : pyEndsWith (k ++ ".CHECKSUM") ".zip" with
      | false => rfl
      | true =>
        have l1 := endsWith_last _ ".zip" 'p' (by decide) (by decide) hx
        have l2 : (k ++ ".CHECKSUM").data.getLast? = some 'M' := by
          rw [String.data_append]
          rw [List.getLast?_append_of_ne_nil _ (by decide)]
          decide
        rw [l1] at l2
        exact absurd l2 (by decide)
  · intro k h
    cases hx : pyEndsWith k ".zip" with
    | false => rfl
    | true =>
      have l1 := endsWith_last _ ".json" 'n' (by decide) (by decide) h
      have l2 := endsWith_last _ ".zip" 'p' (by decide) (by decide) hx
      rw [l1] at l2
      exact absurd l2 (by decide)
  · intro d
    cases d <;> rfl

/-- Witness for C6 at a concrete fixture set. -/
theorem claim_C6_key_classification_witness :
    (some (some "a.zip") ∈
      ([some (some "a.zip"), some (some "a.zip.CHECKSUM"), some (some "a.json")] :
        List (Option (Option String)))) ∧
    ("a.zip" ∈ extract_zip_files_from_xml
        (.wellFormed [] [some (some "a.zip"), some (some "a.zip.CHECKSUM"), some (some "a.json")]) ↔
      pyEndsWith "a.zip" ".zip" = true ∧ pyEndsWith "a.zip" ".zip.CHECKSUM" = false) :=
  ⟨by decide, claim_C6_key_classification.1 [] _ "a.zip" (by decide)⟩

/-! ## C5: parse errors are swallowed, not reported -/

/-- Counterexample to C5: a malformed document and a well-formed document
with no `CommonPrefixes`/`Contents` produce identical parser output, so the
caller of `get_common_prefixes` (and of `get_zip_files_from_xml`) cannot
distinguish a parse error from a successful empty parse — the error is only
printed, never returned. -/
theorem claim_C5_parse_error_counterexample :
    get_common_prefixes XmlDoc.malformed = get_common_prefixes (XmlDoc.wellFormed [] []) ∧
    get_zip_files_from_xml XmlDoc.malformed = get_zip_files_from_xml (XmlDoc.wellFormed [] []) ∧
    extract_zip_files_from_xml XmlDoc.malformed =
      extract_zip_files_from_xml (XmlDoc.wellFormed [] []) :=
  ⟨rfl, rfl, rfl⟩

/-- Amended C5: a malformed listing is caught (the run does not crash) and
contributes zero children and zero keys, but the caller receives the same
empty list as for a successful parse of an element-free document — no
distinguishable error value; absent `CommonPrefixes`/`Contents` elements
likewise yield zero children / zero keys; the crawler worker treats a
malformed body as a success with no children. -/
theorem claim_C5_parse_error :
    (∀ cts, get_common_prefixes (XmlDoc.wellFormed [] cts) = []) ∧
    (∀ cps, get_zip_files_from_xml (XmlDoc.wellFormed cps []) = []) ∧
    (∀ cps, extract_zip_files_from_xml (XmlDoc.wellFormed cps []) = []) ∧
    get_common_prefixes XmlDoc.malformed = [] ∧
    get_zip_files_from_xml XmlDoc.malformed = [] ∧
    extract_zip_files_from_xml XmlDoc.malformed = [] ∧
    (∀ p, download_xml_worker (fun _ => FetchOutcome.success XmlDoc.malformed) (some p)
        = ⟨true, "", xml_filename p, []⟩) :=
  ⟨fun _ => rfl, fun _ => rfl, fun _ => rfl, rfl, rfl, rfl, fun _ => rfl⟩

/-! ## C10: a present-but-empty Prefix element yields a None child -/

/-- Claim C10: an empty `Prefix` child element parses to a `None` entry in
the child-prefix list, and the level-synchronized crawler passes that
`None` on into the next level's dispatched frontier — callers cannot
assume every child prefix is a string. -/
theorem claim_C10_none_child :
    get_common_prefixes (XmlDoc.wellFormed [some none] []) = [none] ∧
    (download_xml_worker (fun _ => FetchOutcome.success (XmlDoc.wellFormed [some none] []))
        (some "data/")).children = [none] ∧
    none ∈ ((runCrawl (fun _ => FetchOutcome.success (XmlDoc.wellFormed [some none] []))
        2 "data/").getD 1 noLevel).dispatched := by
  refine ⟨rfl, rfl, ?_⟩
  decide

/-! ## C8: mirror file name derivation -/

lemma rstrip_append_underscore (l : List Char) :
    rstripUnderscore (l ++ ['_']) = rstripUnderscore l := by
  simp [rstripUnderscore, List.reverse_append, List.dropWhile_cons]

lemma rstrip_no_underscore (l : List Char) (h : l.getLast? ≠ some '_') :
    rstripUnderscore l = l := by
  unfold rstripUnderscore
  cases hr : l.reverse with
  | nil =>
    have : l = [] := by simpa using congrArg List.reverse hr
    simp [this]
  | cons a t =>
    have hla : l.getLast? = some a := by rw [← List.head?_reverse, hr]; rfl
    have ha : a ≠ '_' := fun hc => h (hc ▸ hla)
    rw [List.dropWhile_cons, if_neg (by simp [ha]), ← hr, List.reverse_reverse]

lemma encodePfx_agree (q : List Char) (h1 : q.getLast? ≠ some '_')
    (h2 : q.getLast? ≠ some '/') :
    encodePfx (q ++ ['/']) = specEncodePfx (q ++ ['/']) := by
  unfold encodePfx specEncodePfx
  have hrep : replaceSlash (q ++ ['/']) = replaceSlash q ++ ['_'] := by
    simp [replaceSlash]
  rw [hrep, rstrip_append_underscore]
  rw [rstrip_no_underscore]
  · rw [if_pos (by simp), List.dropLast_concat]
  · intro hcontra
    rw [replaceSlash, List.getLast?_map] at hcontra
    cases hq : q.getLast? with
    | none => rw [hq] at hcontra; exact absurd hcontra (by simp)
    | some c =>
      rw [hq] at hcontra
      simp only [Option.map_some', Option.some.injEq] at hcontra
      by_cases hc : c = '/'
      · exact h2 (hc ▸ hq)
      · rw [if_neg hc] at hcontra
        exact h1 (hcontra ▸ hq)

/-- Counterexample to C8: for the prefix `"a_/"` the code's file name is
`directory_a.xml` — `rstrip('_')` also removes the underscore that was part
of the prefix body — while the claimed replace-separators-then-strip-the-
trailing-separator function yields `directory_a_.xml`. -/
theorem claim_C8_mirror_filename_counterexample :
    xml_filename "a_/" = "directory_a.xml" ∧
    "directory_" ++ String.mk (specEncodePfx ("a_/".data)) ++ ".xml" = "directory_a_.xml" ∧
    xml_filename "a_/" ≠ "directory_" ++ String.mk (specEncodePfx ("a_/".data)) ++ ".xml" := by
  refine ⟨?_, ?_, ?_⟩ <;> decide

/-- Amended C8: the mirror file name is the deterministic function
`"directory_" + prefix.replace('/', '_').rstrip('_') + ".xml"` of the
prefix alone (in particular independent of the fetched document, so two
runs over the same prefix derive the same path and overwrite); it
coincides with the spec's replace-separators-and-strip-the-trailing-
separator encoding whenever the character before the trailing separator is
neither `'_'` nor a second separator. -/
theorem claim_C8_mirror_filename :
    (∀ p : String, xml_filename p =
        "directory_" ++ String.mk (rstripUnderscore (replaceSlash p.data)) ++ ".xml")
    ∧ (∀ (doc : XmlDoc) (p : String),
        (download_xml_worker (fun _ => FetchOutcome.success doc) (some p)).file = xml_filename p)
    ∧ (∀ q : List Char, q.getLast? ≠ some '_' → q.getLast? ≠ some '/' →
        encodePfx (q ++ ['/']) = specEncodePfx (q ++ ['/'])) :=
  ⟨fun _ => rfl, fun _ _ => rfl, encodePfx_agree⟩

/-- Witness for C8 on the prefix `"data/"`. -/
theorem claim_C8_mirror_filename_witness :
    (("data".data : List Char).getLast? ≠ some '_' ∧
      ("data".data : List Char).getLast? ≠ some '/') ∧
    encodePfx ("data".data ++ ['/']) = specEncodePfx ("data".data ++ ['/']) :=
  ⟨by decide, claim_C8_mirror_filename.2.2 "data".data (by decide) (by decide)⟩

/-! ## C4: retry behaviour of the configured fetcher -/

lemma urlopenLoop_transport (r k : Nat) :
    urlopenLoop (fun _ => .transportError) [] r k = (r + 1, .error "MaxRetryError") := by
  induction r generalizing k with
  | zero => rfl
  | succ n ih => simp [urlopenLoop, ih (k + 1)]

lemma urlopenLoop_retry_after_503 (r k : Nat) :
    urlopenLoop (fun _ => .response 503 true) [] r k = (r + 1, .error "MaxRetryError") := by
  induction r generalizing k with
  | zero => rfl
  | succ n ih => simp [urlopenLoop, ih (k + 1), retry_is_retry, retryAfterStatuses]

lemma urlopenLoop_plain_response (s : Nat) (ra : Bool) (h : retry_is_retry [] s ra = false)
    (r k : Nat) :
    urlopenLoop (fun _ => .response s ra) [] r k = (1, .ok s) := by
  cases r with
  | zero => simp [urlopenLoop, h]
  | succ n => simp [urlopenLoop, h]

/-- Counterexample to C4: with `retries = 3` the claim predicates
`retries + 1 = 4` attempts for a persistently non-2xx endpoint, but the
default `Retry` configuration (`status_forcelist=None`) does not retry a
plain 500 response at all: the first response is returned and
`raise_for_status` raises after exactly one attempt. -/
theorem claim_C4_retry_counterexample :
    send_xml_request_with_retry (fun _ => AttemptResult.response 500 false) 3
      = (1, .error "HTTPError") ∧ (1 : Nat) ≠ 3 + 1 :=
  ⟨rfl, by decide⟩

/-- Amended C4: transport-level failures are retried up to the configured
retry count (total attempts = retries + 1) and then raised as a terminal
error; a response whose status is not in the (unset) forcelist and not a
Retry-After-carrying 413/429/503 is returned after exactly one attempt —
`raise_for_status` then raises the terminal error iff it is non-2xx/3xx;
a Retry-After-carrying 503 is retried until the budget is exhausted and
then raised as a terminal error. -/
theorem claim_C4_retry :
    (∀ retries, send_xml_request_with_retry (fun _ => AttemptResult.transportError) retries
        = (retries + 1, .error "MaxRetryError"))
    ∧ (∀ s ra retries, retry_is_retry [] s ra = false → 400 ≤ s →
        send_xml_request_with_retry (fun _ => AttemptResult.response s ra) retries
          = (1, .error "HTTPError"))
    ∧ (∀ s ra retries, retry_is_retry [] s ra = false → s < 400 →
        send_xml_request_with_retry (fun _ => AttemptResult.response s ra) retries
          = (1, .ok s))
    ∧ (∀ retries, send_xml_request_with_retry (fun _ => AttemptResult.response 503 true) retries
        = (retries + 1, .error "MaxRetryError")) := by
  refine ⟨?_, ?_, ?_, ?_⟩
  · intro retries
    simp [send_xml_request_with_retry, urlopenLoop_transport, Except.bind]
  · intro s ra retries h hs
    simp [send_xml_request_with_retry, urlopenLoop_plain_response s ra h, Except.bind,
      raise_for_status, hs]
  · intro s ra retries h hs
    simp [send_xml_request_with_retry, urlopenLoop_plain_response s ra h, Except.bind,
      raise_for_status, Nat.not_le.mpr hs]
  · intro retries
    simp [send_xml_request_with_retry, urlopenLoop_retry_after_503, Except.bind]

/-- Witness for C4: a plain 500 with two configured retries yields one
attempt and a terminal error. -/
theorem claim_C4_retry_witness :
    (retry_is_retry [] 500 false = false ∧ 400 ≤ 500) ∧
    send_xml_request_with_retry (fun _ => AttemptResult.response 500 false) 2
      = (1, .error "HTTPError") :=
  ⟨by decide, claim_C4_retry.2.1 500 false 2 (by decide) (by decide)⟩

/-! ## C9: download worker resumability and cleanup -/

lemma run_download_batch_counts (net : String → DlOutcome) (tasks : List String) :
    ∀ fs : FsState,
      (run_download_batch net tasks fs).2.1 + (run_download_batch net tasks fs).2.2.1
        = tasks.length := by
  induction tasks with
  | nil => intro fs; rfl
  | cons k rest ih =>
    intro fs
    simp only [run_download_batch, List.length_cons]
    have hrec := ih (download_file_worker (net k) fs k).1
    cases hr : (download_file_worker (net k) fs k).2 <;> simp [hr] <;> omega

/-- Claim C9: an already-present local path is skipped and reported as a
success with the filesystem unchanged; a failed download leaves no file at
the local path (a partially written file is unlinked) and touches no other
path; and every task of a batch is accounted as exactly one success or one
failure — a per-key failure does not abort the rest of the batch. -/
theorem claim_C9_download_worker :
    (∀ (net : DlOutcome) (fs : FsState) (path c : String), fs path = some c →
        download_file_worker net fs path = (fs, true))
    ∧ (∀ (part : Option String) (fs : FsState) (path : String), fs path = none →
        (download_file_worker (.err part) fs path).2 = false ∧
        (download_file_worker (.err part) fs path).1 path = none ∧
        (∀ q, q ≠ path → (download_file_worker (.err part) fs path).1 q = fs q))
    ∧ (∀ (net : String → DlOutcome) (tasks : List String) (fs : FsState),
        (run_download_batch net tasks fs).2.1 + (run_download_batch net tasks fs).2.2.1
          = tasks.length) := by
  refine ⟨?_, ?_, ?_⟩
  · intro net fs path c h
    simp [download_file_worker, h]
  · intro part fs path h
    cases part with
    | none =>
      refine ⟨?_, ?_, ?_⟩ <;> simp [download_file_worker, h]
    | some pc =>
      refine ⟨?_, ?_, ?_⟩
      · simp [download_file_worker, h, fsWrite, fsErase]
      · simp [download_file_worker, h, fsWrite, fsErase]
      · intro q hq
        simp [download_file_worker, h, fsWrite, fsErase, hq]
  · intro net tasks fs
    exact run_download_batch_counts net tasks fs

/-- Witness for C9: skipping an existing file at path `"a"`. -/
theorem claim_C9_download_worker_witness :
    ((fun q => if q = "a" then some "c" else none) : FsState) "a" = some "c" ∧
    download_file_worker (.ok "x") (fun q => if q = "a" then some "c" else none) "a"
      = ((fun q => if q = "a" then some "c" else none), true) :=
  ⟨by decide,
    claim_C9_download_worker.1 (.ok "x") (fun q => if q = "a" then some "c" else none)
      "a" "c" (by decide)⟩

/-! ## C7: date filter and usage error -/

lemma month_fmt_props (mi : Int) (h1 : 1 ≤ mi) (h2 : mi ≤ 12) :
    month_fmt mi ≠ "" ∧ pyZfill2 (month_fmt mi) = month_fmt mi := by
  interval_cases mi <;> exact ⟨by decide, by decide⟩

/-- Claim C7: with both year and month supplied (and valid), a key is
selected iff it contains the literal substring `year-MM` with the month
zero-padded to two digits; supplying exactly one of year/month makes
`main` exit with status 1, independently of the key list (the validation
precedes the XML scan and the download phase). -/
theorem claim_C7_date_filter :
    (∀ (y m : String) (mi : Int) (keys : List String),
        y ≠ "" → m ≠ "" → pyIntParse y ≠ none → pyIntParse m = some mi →
        1 ≤ mi → mi ≤ 12 →
        download_zip_main (some y) (some m) keys
          = .ok (keys.filter fun k => pyContains k (y ++ "-" ++ month_fmt mi)) ∧
        ∀ k, (k ∈ keys.filter fun k => pyContains k (y ++ "-" ++ month_fmt mi)) ↔
          k ∈ keys ∧ pyContains k (y ++ "-" ++ month_fmt mi) = true)
    ∧ (∀ (y : String) (keys : List String), y ≠ "" →
        download_zip_main (some y) none keys = .error 1 ∧
        download_zip_main none (some y) keys = .error 1) := by
  constructor
  · intro y m mi keys hy hm hyp hmp h1 h2
    obtain ⟨yi, hyi⟩ := Option.ne_none_iff_exists'.mp hyp
    obtain ⟨hne, hz⟩ := month_fmt_props mi h1 h2
    constructor
    · simp only [download_zip_main, validate_date_args, argTruthy, Option.getD_some,
        hyi, hmp, decide_eq_true_eq]
      rw [if_pos (by simp [hy, hm]), if_pos (by simp [hy, hm]), if_pos ⟨h1, h2⟩]
      simp only [filter_files_by_date, argTruthy, Option.getD_some, decide_eq_true_eq]
      rw [if_neg (by simp [hy, hne]), hz]
    · intro k
      rw [List.mem_filter]
  · intro y keys hy
    constructor <;>
      simp [download_zip_main, validate_date_args, argTruthy, hy]

/-- Witness for C7 with year "2024", month "4": the pattern is "2024-04";
a key containing "2024-04" is retained and one containing only "2024-05"
is excluded. -/
theorem claim_C7_date_filter_witness :
    ("2024" ≠ "" ∧ "4" ≠ "" ∧ pyIntParse "2024" ≠ none ∧ pyIntParse "4" = some 4 ∧
      (1 : Int) ≤ 4 ∧ (4 : Int) ≤ 12) ∧
    download_zip_main (some "2024") (some "4") ["k2024-04.zip", "k2024-05.zip"]
      = .ok (["k2024-04.zip", "k2024-05.zip"].filter fun k =>
          pyContains k ("2024" ++ "-" ++ month_fmt 4)) ∧
    (["k2024-04.zip", "k2024-05.zip"].filter fun k =>
        pyContains k ("2024" ++ "-" ++ month_fmt 4)) = ["k2024-04.zip"] :=
  ⟨⟨by decide, by decide, by decide, by decide, by decide, by decide⟩,
    (claim_C7_date_filter.1 "2024" "4" 4 ["k2024-04.zip", "k2024-05.zip"]
      (by decide) (by decide) (by decide) (by decide) (by decide) (by decide)).1,
    by decide⟩

/-! ## Crawler lemmas -/

lemma procRec_succ (env : String → FetchOutcome) (n d : Nat) (pfx : Option String) :
    procRec env (n + 1) d pfx = procStep env (procRec env n) d pfx := rfl

lemma procStep_none (env : String → FetchOutcome)
    (rec : Nat → Option String → Trace × Option String) (d : Nat) :
    procStep env rec d none = (Trace.empty, some typeErrorMsg) := rfl

lemma procStep_failure (env : String → FetchOutcome)
    (rec : Nat → Option String → Trace × Option String) (d : Nat) (p msg : String)
    (he : env p = .failure msg) :
    procStep env rec d (some p) = (⟨[(d, p)], [], [(some p, msg)]⟩, none) := by
  simp [procStep, he]

lemma procStep_success_fetched (env : String → FetchOutcome)
    (rec : Nat → Option String → Trace × Option String) (d : Nat) (p : String)
    (doc : XmlDoc) (he : env p = .success doc) :
    (procStep env rec d (some p)).1.fetched
      = (d, p) :: (procChildrenAux (rec (d + 1)) (get_common_prefixes doc)).1.fetched := by
  simp only [procStep, he]
  cases (procChildrenAux (rec (d + 1)) (get_common_prefixes doc)).2 <;> rfl

lemma procStep_success_errlog_mem (env : String → FetchOutcome)
    (rec : Nat → Option String → Trace × Option String) (d : Nat) (p : String)
    (doc : XmlDoc) (he : env p = .success doc) (z : Option String × String)
    (hz : z ∈ (procChildrenAux (rec (d + 1)) (get_common_prefixes doc)).1.errlog) :
    z ∈ (procStep env rec d (some p)).1.errlog := by
  simp only [procStep, he]
  cases (procChildrenAux (rec (d + 1)) (get_common_prefixes doc)).2 with
  | none => exact hz
  | some e => exact List.mem_append_left _ hz

lemma procChildrenAux_trace_pred (f : Option String → Trace × Option String)
    (R : Trace → Prop) (hempty : R Trace.empty)
    (happend : ∀ a b, R a → R b → R (a.append b)) (hf : ∀ c, R (f c).1) :
    ∀ cs, R (procChildrenAux f cs).1 := by
  intro cs
  induction cs with
  | nil => exact hempty
  | cons c rest ih =>
    simp only [procChildrenAux]
    cases (f c).2 with
    | none => exact happend _ _ (hf c) ih
    | some e => exact hf c

lemma procRec_fetched_bound (env : String → FetchOutcome) :
    ∀ (fuel d : Nat) (pfx : Option String) (x : Nat × String),
      x ∈ (procRec env fuel d pfx).1.fetched → x.1 < d + fuel := by
  intro fuel
  induction fuel with
  | zero => intro d pfx x hx; simp [procRec, Trace.empty] at hx
  | succ n ih =>
    intro d pfx x hx
    rw [procRec_succ] at hx
    cases pfx with
    | none => rw [procStep_none] at hx; simp [Trace.empty] at hx
    | some p =>
      cases he : env p with
      | failure msg =>
        rw [procStep_failure env _ d p msg he] at hx
        simp only [List.mem_singleton] at hx
        subst hx
        omega
      | success doc =>
        rw [procStep_success_fetched env _ d p doc he] at hx
        rcases List.mem_cons.mp hx with hx | hx
        · subst hx; omega
        · have hcb : ∀ y ∈ (procChildrenAux (procRec env n (d + 1))
              (get_common_prefixes doc)).1.fetched, (y : Nat × String).1 < d + 1 + n := by
            refine procChildrenAux_trace_pred _
              (fun t => ∀ y ∈ t.fetched, (y : Nat × String).1 < d + 1 + n) ?_ ?_ ?_ _
            · intro y hy; simp [Trace.empty] at hy
            · intro a b ha hb y hy
              rcases List.mem_append.mp hy with h | h
              exacts [ha y h, hb y h]
            · intro c y hy; exact ih (d + 1) c y hy
          have := hcb x hx
          omega

lemma procRec_failure_logged (env : String → FetchOutcome) :
    ∀ (fuel d : Nat) (pfx : Option String) (dq : Nat) (q msg : String),
      (dq, q) ∈ (procRec env fuel d pfx).1.fetched → env q = .failure msg →
      (some q, msg) ∈ (procRec env fuel d pfx).1.errlog := by
  intro fuel
  induction fuel with
  | zero => intro d pfx dq q msg hx _; simp [procRec, Trace.empty] at hx
  | succ n ih =>
    intro d pfx dq q msg hx hq
    rw [procRec_succ] at hx ⊢
    cases pfx with
    | none => rw [procStep_none] at hx; simp [Trace.empty] at hx
    | some p =>
      cases he : env p with
      | failure m =>
        rw [procStep_failure env _ d p m he] at hx ⊢
        simp only [List.mem_singleton, Prod.mk.injEq] at hx
        obtain ⟨-, rfl⟩ := hx
        rw [he] at hq
        obtain rfl : m = msg := by injection hq
        simp
      | success doc =>
        rw [procStep_success_fetched env _ d p doc he] at hx
        rcases List.mem_cons.mp hx with hx | hx
        · obtain ⟨-, rfl⟩ : dq = d ∧ q = p := Prod.mk.injEq .. ▸ hx
          rw [he] at hq
          cases hq
        · refine procStep_success_errlog_mem env _ d p doc he _ ?_
          have hcb : ∀ z ∈ (procChildrenAux (procRec env n (d + 1))
              (get_common_prefixes doc)).1.fetched, ∀ dz : Nat, ∀ qz mz : String,
              z = (dz, qz) → env qz = .failure mz →
              (some qz, mz) ∈ (procChildrenAux (procRec env n (d + 1))
                (get_common_prefixes doc)).1.errlog := by
            refine procChildrenAux_trace_pred _
              (fun t => ∀ z ∈ t.fetched, ∀ dz : Nat, ∀ qz mz : String,
                z = (dz, qz) → env qz = .failure mz → (some qz, mz) ∈ t.errlog) ?_ ?_ ?_ _
            · intro z hz; simp [Trace.empty] at hz
            · intro a b ha hb z hz dz qz mz hzz hqz
              rcases List.mem_append.mp hz with h | h
              · exact List.mem_append_left _ (ha z h dz qz mz hzz hqz)
              · exact List.mem_append_right _ (hb z h dz qz mz hzz hqz)
            · intro c z hz dz qz mz hzz hqz
              subst hzz
              exact ih (d + 1) c dz qz mz hz hqz
          exact hcb _ hx dq q msg rfl hq

lemma procRec_str_no_raise (env : String → FetchOutcome) (fuel d : Nat) (p : String) :
    (procRec env fuel d (some p)).2 = none := by
  cases fuel with
  | zero => rfl
  | succ n =>
    rw [procRec_succ]
    cases he : env p with
    | failure msg => rw [procStep_failure env _ d p msg he]
    | success doc =>
      simp only [procStep, he]
      cases (procChildrenAux (procRec env n (d + 1)) (get_common_prefixes doc)).2 <;> rfl

lemma runLevels_length (env : String → FetchOutcome) :
    ∀ (fuel : Nat) (cur : List (Option String)),
      (runLevels env fuel cur).length ≤ fuel := by
  intro fuel
  induction fuel with
  | zero => intro cur; simp [runLevels]
  | succ n ih =>
    intro cur
    simp only [runLevels]
    split
    · simp
    · simp only [List.length_cons]
      refine Nat.succ_le_succ ?_
      split
      · simp
      · exact ih _

/-! ## C2: the depth boundary -/

/-- Claim C2: no prefix at depth at least `maxDepth` is ever fetched, in
either crawler.  In the recursive crawler every fetch recorded in the trace
has depth strictly below `maxDepth`; the level loop executes at most
`maxDepth` levels (the start prefix having depth 0); and with
`maxDepth = 0` both crawlers fetch nothing at all — the boundary check is
at equality. -/
theorem claim_C2_depth_boundary :
    (∀ (env : String → FetchOutcome) (maxDepth : Nat) (pfx : Option String)
        (dq : Nat) (q : String),
        (dq, q) ∈ (process_s3_directory_recursive env maxDepth pfx).1.fetched →
        dq < maxDepth)
    ∧ (∀ (env : String → FetchOutcome) (maxDepth : Nat) (start : String),
        (runCrawl env maxDepth start).length ≤ maxDepth)
    ∧ (∀ (env : String → FetchOutcome) (pfx : Option String),
        process_s3_directory_recursive env 0 pfx = (Trace.empty, none))
    ∧ (∀ (env : String → FetchOutcome) (start : String), runCrawl env 0 start = []) := by
  refine ⟨?_, ?_, fun _ _ => rfl, fun _ _ => rfl⟩
  · intro env maxDepth pfx dq q hx
    have := procRec_fetched_bound env maxDepth 0 pfx (dq, q) hx
    omega
  · intro env maxDepth start
    exact runLevels_length env maxDepth [some start]

/-- Witness for C2: with `maxDepth = 1` the start prefix is fetched at
depth 0, which is below the boundary. -/
theorem claim_C2_depth_boundary_witness :
    ((0, "data/") ∈ (process_s3_directory_recursive (fun _ => FetchOutcome.failure "boom")
        1 (some "data/")).1.fetched) ∧ 0 < 1 :=
  ⟨by decide, claim_C2_depth_boundary.1 (fun _ => FetchOutcome.failure "boom") 1
    (some "data/") 0 "data/" (by decide)⟩

/-! ## C3: the failure ledger and failure isolation -/

lemma process_level_with_multiprocessing_failedTasks (env : String → FetchOutcome) :
    ∀ l : List (Option String),
      (process_level_with_multiprocessing env l).failedTasks
        = (l.filter fun p => !(download_xml_worker env p).success).map
            fun p => (p, (download_xml_worker env p).errMsg) := by
  intro l
  induction l with
  | nil => rfl
  | cons p rest ih =>
    simp only [process_level_with_multiprocessing, List.filter_cons]
    cases hw : (download_xml_worker env p).success <;> simp [hw, ih]

lemma process_level_with_multiprocessing_counts (env : String → FetchOutcome) :
    ∀ l : List (Option String),
      (process_level_with_multiprocessing env l).succ + (process_level_with_multiprocessing env l).fail = l.length := by
  intro l
  induction l with
  | nil => rfl
  | cons p rest ih =>
    simp only [process_level_with_multiprocessing, List.length_cons]
    cases hw : (download_xml_worker env p).success <;> simp [hw] <;> omega

/-- Claim C3: in the level-synchronized crawler, one level's
`failed_tasks` ledger is exactly the list of dispatched prefixes whose
fetch failed, each paired once with its error message, and every
dispatched prefix is accounted as exactly one success or one failure; in
the recursive crawler, every fetch that fails anywhere in the run has a
ledger entry keyed by its prefix in the run's final error log, a single
failing fetch produces exactly one ledger entry and returns normally,
and a (string-prefix) child never propagates an exception, so after a
failing sibling the remaining siblings of the level are still processed
and their traces fully retained. -/
theorem claim_C3_failure_ledger :
    (∀ (env : String → FetchOutcome) (l : List (Option String)),
        (process_level_with_multiprocessing env l).failedTasks
          = (l.filter fun p => !(download_xml_worker env p).success).map
              fun p => (p, (download_xml_worker env p).errMsg))
    ∧ (∀ (env : String → FetchOutcome) (l : List (Option String)),
        (process_level_with_multiprocessing env l).succ + (process_level_with_multiprocessing env l).fail = l.length)
    ∧ (∀ (env : String → FetchOutcome) (maxDepth : Nat) (pfx : Option String)
        (dq : Nat) (q msg : String),
        (dq, q) ∈ (process_s3_directory_recursive env maxDepth pfx).1.fetched →
        env q = .failure msg →
        (some q, msg) ∈ (process_s3_directory_recursive env maxDepth pfx).1.errlog)
    ∧ (∀ (env : String → FetchOutcome) (maxDepth : Nat) (p msg : String),
        env p = .failure msg → 0 < maxDepth →
        process_s3_directory_recursive env maxDepth (some p)
          = (⟨[(0, p)], [], [(some p, msg)]⟩, none))
    ∧ (∀ (env : String → FetchOutcome) (fuel d : Nat) (p : String)
        (rest : List (Option String)),
        (procChildrenAux (procRec env fuel d) (some p :: rest)).1
          = ((procRec env fuel d (some p)).1).append
              (procChildrenAux (procRec env fuel d) rest).1) := by
  refine ⟨process_level_with_multiprocessing_failedTasks, process_level_with_multiprocessing_counts, ?_, ?_, ?_⟩
  · intro env maxDepth pfx dq q msg hx hq
    exact procRec_failure_logged env maxDepth 0 pfx dq q msg hx hq
  · intro env maxDepth p msg he hpos
    obtain ⟨n, rfl⟩ : ∃ n, maxDepth = n + 1 := ⟨maxDepth - 1, by omega⟩
    show procStep env (procRec env n) 0 (some p) = _
    exact procStep_failure env _ 0 p msg he
  · intro env fuel d p rest
    simp only [procChildrenAux, procRec_str_no_raise env fuel d p]

/-- Witness for C3: a single failing fetch yields exactly one ledger
entry keyed by its prefix, and the crawl returns normally. -/
theorem claim_C3_failure_ledger_witness :
    ((fun _ => FetchOutcome.failure "boom") "data/" = FetchOutcome.failure "boom"
      ∧ 0 < 2) ∧
    process_s3_directory_recursive (fun _ => FetchOutcome.failure "boom") 2 (some "data/")
      = (⟨[(0, "data/")], [], [(some "data/", "boom")]⟩, none) :=
  ⟨⟨rfl, by decide⟩,
    claim_C3_failure_ledger.2.2.2.1 (fun _ => FetchOutcome.failure "boom") 2 "data/"
      "boom" rfl (by decide)⟩

/-! ## C1: the next frontier is the deduplicated union of discovered children -/

lemma mem_process_level_with_multiprocessing_next (env : String → FetchOutcome) :
    ∀ (l : List (Option String)) (x : Option String),
      x ∈ (process_level_with_multiprocessing env l).next ↔
        ∃ p, p ∈ l ∧ (download_xml_worker env p).success = true ∧
          x ∈ (download_xml_worker env p).children := by
  intro l x
  induction l with
  | nil => simp [process_level_with_multiprocessing]
  | cons p rest ih =>
    simp only [process_level_with_multiprocessing]
    cases hw : (download_xml_worker env p).success with
    | false =>
      rw [if_neg (by simp)]
      simp only [ih, List.mem_cons]
      constructor
      · rintro ⟨p', hp', hs, hc⟩
        exact ⟨p', Or.inr hp', hs, hc⟩
      · rintro ⟨p', hp' | hp', hs, hc⟩
        · subst hp'; rw [hw] at hs; cases hs
        · exact ⟨p', hp', hs, hc⟩
    | true =>
      rw [if_pos rfl]
      simp only [List.mem_append, ih, List.mem_cons]
      constructor
      · rintro (hx | ⟨p', hp', hs, hc⟩)
        · exact ⟨p, Or.inl rfl, hw, hx⟩
        · exact ⟨p', Or.inr hp', hs, hc⟩
      · rintro ⟨p', hp' | hp', hs, hc⟩
        · subst hp'; exact Or.inl hc
        · exact Or.inr ⟨p', hp', hs, hc⟩

lemma getD_mem_of_lt {α : Type} (l : List α) (n : Nat) (dflt : α) (h : n < l.length) :
    l.getD n dflt ∈ l := by
  simp [List.getD_eq_getElem?_getD, List.getElem?_eq_getElem h]

lemma runLevels_head_dispatched (env : String → FetchOutcome) :
    ∀ (fuel : Nat) (cur : List (Option String)), (runLevels env fuel cur) ≠ [] →
      ((runLevels env fuel cur).getD 0 noLevel).dispatched = pySetList cur := by
  intro fuel cur h
  cases fuel with
  | zero => exact absurd rfl h
  | succ n =>
    by_cases hc : cur.isEmpty = true
    · exact absurd (by simp [runLevels, hc]) h
    · simp [runLevels, hc]

lemma runLevels_mem_next (env : String → FetchOutcome) :
    ∀ (fuel : Nat) (cur : List (Option String)) (r : LevelRec),
      r ∈ runLevels env fuel cur →
      r.next = (process_level_with_multiprocessing env r.dispatched).next := by
  intro fuel
  induction fuel with
  | zero => intro cur r h; cases h
  | succ n ih =>
    intro cur r h
    simp only [runLevels] at h
    split at h
    · cases h
    · rcases List.mem_cons.mp h with rfl | h2
      · rfl
      · split at h2
        · cases h2
        · exact ih _ r h2

lemma runLevels_chain (env : String → FetchOutcome) :
    ∀ (fuel : Nat) (cur : List (Option String)) (i : Nat),
      i + 1 < (runLevels env fuel cur).length →
      ((runLevels env fuel cur).getD (i + 1) noLevel).dispatched
        = pySetList (((runLevels env fuel cur).getD i noLevel).next) := by
  intro fuel
  induction fuel with
  | zero => intro cur i h; simp [runLevels] at h
  | succ n ih =>
    intro cur i h
    by_cases hc : cur.isEmpty = true
    · simp [runLevels, hc] at h
    · simp only [runLevels, if_neg hc] at h ⊢
      by_cases hn : (process_level_with_multiprocessing env (pySetList cur)).next.isEmpty = true
      · rw [if_pos hn] at h
        simp at h
      · rw [if_neg hn] at h ⊢
        cases i with
        | zero =>
          rw [List.getD_cons_succ, List.getD_cons_zero]
          simp only [List.length_cons] at h
          have hne : runLevels env n (process_level_with_multiprocessing env (pySetList cur)).next ≠ [] := by
            intro hnil
            rw [hnil] at h
            simp at h
          exact runLevels_head_dispatched env n _ hne
        | succ j =>
          rw [List.getD_cons_succ, List.getD_cons_succ]
          simp only [List.length_cons] at h
          exact ih _ j (by omega)

/-- Claim C1: whenever the run executes a level `d + 1`, the frontier
dispatched there is exactly the deduplicated union of the child prefixes
returned by the successful fetches of level `d`: it is duplicate-free, and
a prefix belongs to it iff some prefix dispatched at level `d` was fetched
successfully and reported it as a child — failed fetches contribute
nothing and no other prefix is invented. -/
theorem claim_C1_frontier (env : String → FetchOutcome) (maxDepth : Nat) (start : String)
    (d : Nat) (h : d + 1 < (runCrawl env maxDepth start).length) :
    ((runCrawl env maxDepth start).getD (d + 1) noLevel).dispatched
      = pySetList (((runCrawl env maxDepth start).getD d noLevel).next)
    ∧ ((runCrawl env maxDepth start).getD (d + 1) noLevel).dispatched.Nodup
    ∧ ∀ x, x ∈ ((runCrawl env maxDepth start).getD (d + 1) noLevel).dispatched ↔
        ∃ p, p ∈ ((runCrawl env maxDepth start).getD d noLevel).dispatched ∧
          (download_xml_worker env p).success = true ∧
          x ∈ (download_xml_worker env p).children := by
  simp only [runCrawl] at h ⊢
  have hchain := runLevels_chain env maxDepth [some start] d h
  refine ⟨hchain, ?_, ?_⟩
  · rw [hchain]
    exact List.nodup_dedup _
  · intro x
    rw [hchain]
    show x ∈ List.dedup _ ↔ _
    rw [List.mem_dedup]
    have hmem : (runLevels env maxDepth [some start]).getD d noLevel ∈
        runLevels env maxDepth [some start] :=
      getD_mem_of_lt _ d noLevel (by omega)
    rw [runLevels_mem_next env maxDepth [some start] _ hmem]
    exact mem_process_level_with_multiprocessing_next env _ x

/-- Witness for C1 on a two-level fixture: the root reports children
`a/`, `b/`, `a/` (with a duplicate); level 1 dispatches their
deduplication. -/
theorem claim_C1_frontier_witness :
    (0 + 1 < (runCrawl (fun p => if p = "data/" then
        FetchOutcome.success (XmlDoc.wellFormed
          [some (some "a/"), some (some "b/"), some (some "a/")] [])
      else if p = "a/" then FetchOutcome.success (XmlDoc.wellFormed [] [])
      else FetchOutcome.failure "404") 3 "data/").length) ∧
    ((runCrawl (fun p => if p = "data/" then
        FetchOutcome.success (XmlDoc.wellFormed
          [some (some "a/"), some (some "b/"), some (some "a/")] [])
      else if p = "a/" then FetchOutcome.success (XmlDoc.wellFormed [] [])
      else FetchOutcome.failure "404") 3 "data/").getD (0 + 1) noLevel).dispatched
      = pySetList (((runCrawl (fun p => if p = "data/" then
        FetchOutcome.success (XmlDoc.wellFormed
          [some (some "a/"), some (some "b/"), some (some "a/")] [])
      else if p = "a/" then FetchOutcome.success (XmlDoc.wellFormed [] [])
      else FetchOutcome.failure "404") 3 "data/").getD 0 noLevel).next) :=
  ⟨by decide,
    (claim_C1_frontier (fun p => if p = "data/" then
        FetchOutcome.success (XmlDoc.wellFormed
          [some (some "a/"), some (some "b/"), some (some "a/")] [])
      else if p = "a/" then FetchOutcome.success (XmlDoc.wellFormed [] [])
      else FetchOutcome.failure "404") 3 "data/" 0 (by decide)).1⟩

end BinancePublicData
